import Mathlib

/-!
Shallow embedding of the `rogue-guy` dungeon crawler (Rust sources in
`src/`): the entity/component data model, the combat and progression
engine from `game_object.rs`, the confused-AI step from `game.rs`, and
the dungeon generator from `map.rs`.  Rust `i32` arithmetic is modelled
with `Int` (no operation here comes near overflow), `Vec` with `List`,
panics (`assert!`, `unwrap`, out-of-bounds indexing) with `Option` or an
explicitly marked unreachable branch, and the process-wide random source
with explicit draw parameters quantified over their `gen_range` bounds.
-/

/-- Display colors used by the modelled operations (tcod color constants;
display-only data carried through the message log and object fields). -/
inductive Color where
  | white
  | red
  | darkRed
  | orange
  | green
  | lightGreen
  | lightYellow
  | yellow
  | lightViolet
  | lightBlue
  | lightCyan
  | violet
  | desaturatedGreen
  | darkerGreen
  deriving DecidableEq, Repr

/-- Modelled from the spec: the `equipment` module is not under `src/`
(`game_object.rs` does `use crate::equipment::*`).  Per the spec data
model, Equipment carries `{ slot: enum, power_bonus, defense_bonus,
max_hp_bonus, equipped: bool }`; the slot enum is the usual pair of hands. -/
inductive Slot where
  | leftHand
  | rightHand
  deriving DecidableEq, Repr

def Slot.show : Slot → String
  | .leftHand => "left hand"
  | .rightHand => "right hand"

/-- Modelled from the spec: the Equipment component
`{ slot: enum, power_bonus, defense_bonus, max_hp_bonus, equipped: bool }`. -/
structure Equipment where
  slot : Slot
  equipped : Bool
  power_bonus : Int
  defense_bonus : Int
  max_hp_bonus : Int
  deriving DecidableEq, Repr

/-- `DeathCallback` from `game_object.rs`. -/
inductive DeathCallback where
  | player
  | monster
  deriving DecidableEq, Repr

/-- `Fighter` component from `game_object.rs`. -/
structure Fighter where
  hp : Int
  base_max_hp : Int
  base_defense : Int
  base_power : Int
  xp : Int
  on_death : DeathCallback
  deriving DecidableEq, Repr

/-- `Ai` from `game_object.rs`: `Basic` or `Confused` nesting the prior AI. -/
inductive Ai where
  | basic
  | confused (previous_ai : Ai) (num_turns : Int)
  deriving DecidableEq, Repr

/-- `Item` tag from `game_object.rs`. -/
inductive Item where
  | heal
  | lightning
  | confuse
  | fireball
  | sword
  | shield
  deriving DecidableEq, Repr

/-- `GameObject` from `game_object.rs`. -/
structure GameObject where
  x : Int
  y : Int
  glyph : Char
  name : String
  color : Color
  blocks : Bool
  alive : Bool
  fighter : Option Fighter
  ai : Option Ai
  item : Option Item
  equipment : Option Equipment
  always_visible : Bool
  level : Int
  deriving DecidableEq, Repr

/-- `GameObject::new`. -/
def GameObject.new (x y : Int) (glyph : Char) (name : String) (color : Color)
    (blocks : Bool) : GameObject :=
  { x := x, y := y, glyph := glyph, name := name, color := color,
    blocks := blocks, alive := false, fighter := none, ai := none,
    item := none, equipment := none, always_visible := false, level := 1 }

/-- `GameObject::pos`. -/
def GameObject.pos (o : GameObject) : Int × Int := (o.x, o.y)

/-- `GameObject::set_pos`. -/
def GameObject.set_pos (o : GameObject) (x y : Int) : GameObject :=
  { o with x := x, y := y }

/-- A map tile (`map.rs`). -/
structure Tile where
  blocked : Bool
  block_sight : Bool
  explored : Bool
  deriving DecidableEq, Repr

/-- `Tile::empty`. -/
def Tile.empty : Tile := { blocked := false, block_sight := false, explored := false }

/-- `Tile::wall`. -/
def Tile.wall : Tile := { blocked := true, block_sight := true, explored := false }

/-- The Rust `Map = Vec<Vec<Tile>>` (an 80 x 43 grid indexed `map[x][y]`)
is modelled as a total function on integer coordinates; the generator
theorems show every coordinate the code reads or writes stays inside the
grid, so the total-function model and the vector agree wherever the code
looks. -/
def MapF := Int → Int → Tile

/-- The message log (`panel.rs`, `Messages`): ordered `(text, color)`
pairs, oldest first, append-only. -/
def Messages := List (String × Color)

/-- `Messages::add` pushes at the end. -/
def Messages.add (m : Messages) (s : String) (c : Color) : Messages :=
  List.append m [(s, c)]

instance : DecidableEq Messages :=
  inferInstanceAs (DecidableEq (List (String × Color)))

/-- `Game` from `game.rs` (the fields the modelled operations touch). -/
structure Game where
  game_map : MapF
  messages : Messages
  inventory : List GameObject
  dungeon_level : Nat

def LEVEL_UP_BASE : Int := 200

def LEVEL_UP_FACTOR : Int := 150

/-- `GameObject::get_all_equipped`: only the player consults the
inventory for equipped equipment; every other entity gets `[]`. -/
def GameObject.get_all_equipped (o : GameObject) (game : Game) : List Equipment :=
  if o.name = "player" then
    (game.inventory.filter fun it => (it.equipment.map fun e => e.equipped).getD false).filterMap
      fun it => it.equipment
  else
    []

/-- `GameObject::power`: base power plus the sum of equipped power bonuses. -/
def GameObject.power (o : GameObject) (game : Game) : Int :=
  (o.fighter.map fun f => f.base_power).getD 0 +
    ((o.get_all_equipped game).map fun e => e.power_bonus).sum

/-- `GameObject::defense`: base defense plus the sum of equipped defense bonuses. -/
def GameObject.defense (o : GameObject) (game : Game) : Int :=
  (o.fighter.map fun f => f.base_defense).getD 0 +
    ((o.get_all_equipped game).map fun e => e.defense_bonus).sum

/-- `GameObject::max_hp`: base max hp plus the sum of equipped max-hp bonuses. -/
def GameObject.max_hp (o : GameObject) (game : Game) : Int :=
  (o.fighter.map fun f => f.base_max_hp).getD 0 +
    ((o.get_all_equipped game).map fun e => e.max_hp_bonus).sum

/-- `player_death` from `game_object.rs`: message plus cosmetic change only. -/
def player_death (player : GameObject) (game : Game) : GameObject × Game :=
  let game := { game with messages := game.messages.add "You died!" Color.red }
  ({ player with glyph := '%', color := Color.darkRed }, game)

/-- `monster_death` from `game_object.rs`: message (with the old name),
then corpse transformation: unblock, clear fighter and ai, rename. -/
def monster_death (monster : GameObject) (game : Game) : GameObject × Game :=
  let game :=
    { game with messages := game.messages.add (monster.name ++ " Is dead!") Color.orange }
  ({ monster with
      glyph := '%', color := Color.darkRed, blocks := false,
      fighter := none, ai := none,
      name := "remains of " ++ monster.name }, game)

/-- `DeathCallback::callback`. -/
def DeathCallback.callback (c : DeathCallback) (o : GameObject) (game : Game) :
    GameObject × Game :=
  match c with
  | .player => player_death o game
  | .monster => monster_death o game

/-- `GameObject::take_damage`: subtract positive damage from hp, then run
the death check on the (copied) fighter; on death return the banked xp. -/
def GameObject.take_damage (o : GameObject) (damage : Int) (game : Game) :
    GameObject × Game × Option Int :=
  let o :=
    match o.fighter with
    | some f => if damage > 0 then { o with fighter := some { f with hp := f.hp - damage } } else o
    | none => o
  match o.fighter with
  | some f =>
    if f.hp ≤ 0 then
      let o := { o with alive := false }
      let (o, game) := f.on_death.callback o game
      (o, game, some f.xp)
    else
      (o, game, none)
  | none => (o, game, none)

/-- `GameObject::attack`: damage = attacker power minus defender defense;
`none` models the `unwrap` panic on an attacker without a fighter when
crediting xp (never reached for fighters). -/
def GameObject.attack (a : GameObject) (target : GameObject) (game : Game) :
    Option (GameObject × GameObject × Game) :=
  let damage := a.power game - target.defense game
  if damage > 0 then
    let game :=
      { game with messages := (game.messages.add
          (a.name ++ " attacks " ++ target.name ++ " for " ++ toString damage ++ " hit points.")
          Color.white) }
    let (target, game, xpOpt) := target.take_damage damage game
    match xpOpt with
    | some xp =>
      match a.fighter with
      | some fa => some ({ a with fighter := some { fa with xp := fa.xp + xp } }, target, game)
      | none => none
    | none => some (a, target, game)
  else
    some (a, target,
      { game with messages := (game.messages.add
          (a.name ++ " attacks " ++ target.name ++ " but it has no effect!") Color.white) })

/-- `GameObject::heal`: add the amount, clamping above at the effective
max hp (no clamping below). -/
def GameObject.heal (o : GameObject) (amount : Int) (game : Game) : GameObject :=
  let mh := o.max_hp game
  match o.fighter with
  | some f =>
    let hp := f.hp + amount
    let hp := if hp > mh then mh else hp
    { o with fighter := some { f with hp := hp } }
  | none => o

/-- `GameObject::equip`: mark an unequipped equipment item as equipped. -/
def GameObject.equip (o : GameObject) (messages : Messages) : GameObject × Messages :=
  if o.item.isNone then
    (o, messages.add ("Can't equip " ++ o.name ++ " because it's not an Item.") Color.red)
  else
    match o.equipment with
    | some equipment =>
      if ¬ equipment.equipped then
        ({ o with equipment := some { equipment with equipped := true } },
          messages.add ("Equipped " ++ o.name ++ " on " ++ equipment.slot.show) Color.lightGreen)
      else
        (o, messages)
    | none =>
      (o, messages.add ("Can't equip " ++ o.name ++ " because it's not an Equipment.") Color.red)

/-- `GameObject::dequip`, exactly as written in `game_object.rs`: note the
source guard is `if !equipment.equipped` (the same guard as `equip`), so
the body (which re-assigns `equipped = false` and logs) runs only for
items that are already unequipped, and an equipped item is left untouched. -/
def GameObject.dequip (o : GameObject) (messages : Messages) : GameObject × Messages :=
  if o.item.isNone then
    (o, messages.add ("Can't dequip " ++ o.name ++ " because it's not an Item.") Color.red)
  else
    match o.equipment with
    | some equipment =>
      if ¬ equipment.equipped then
        ({ o with equipment := some { equipment with equipped := false } },
          messages.add ("Dequipped " ++ o.name ++ " on " ++ equipment.slot.show) Color.lightYellow)
      else
        (o, messages)
    | none =>
      (o, messages.add ("Can't dequip " ++ o.name ++ " because it's not an Equipment.") Color.red)

/-- Modelled from the spec: `get_equipped_in_slot` lives in the missing
`equipment` module.  Per the spec ("at most one equipped item per slot",
auto-equip on pickup "only if no other item currently occupies that
equipment slot") it returns the index of an inventory item whose
equipment is currently equipped in the given slot, if any. -/
def get_equipped_in_slot (slot : Slot) (inventory : List GameObject) : Option Nat :=
  inventory.findIdx? fun it =>
    (it.equipment.map fun e => e.equipped && e.slot == slot).getD false

/-- `UseResult` from `game_object.rs`. -/
inductive UseResult where
  | usedUp
  | usedAndKept
  | cancelled
  deriving DecidableEq, Repr

/-- `toggle_equipment` from `game_object.rs`: dequip if equipped,
otherwise dequip the current occupant of the slot (if any) and equip.
The `none` fallbacks on `List.get?` model out-of-bounds index panics and
are unreachable for indices into the inventory. -/
def toggle_equipment (inventory_id : Nat) (game : Game) : Game × UseResult :=
  match (game.inventory.get? inventory_id).bind fun it => it.equipment with
  | none => (game, .cancelled)
  | some equipment =>
    if equipment.equipped then
      match game.inventory.get? inventory_id with
      | some it =>
        let (it, m) := it.dequip game.messages
        ({ game with inventory := game.inventory.set inventory_id it, messages := m },
          .usedAndKept)
      | none => (game, .usedAndKept)
    else
      let game :=
        match get_equipped_in_slot equipment.slot game.inventory with
        | some current =>
          match game.inventory.get? current with
          | some cur =>
            let (cur, m) := cur.dequip game.messages
            { game with inventory := game.inventory.set current cur, messages := m }
          | none => game
        | none => game
      match game.inventory.get? inventory_id with
      | some it =>
        let (it, m) := it.equip game.messages
        ({ game with inventory := game.inventory.set inventory_id it, messages := m },
          .usedAndKept)
      | none => (game, .usedAndKept)

/-- `Vec::swap_remove`: replace the element at `i` with the last element
and pop the last slot. -/
def swapRemove (l : List GameObject) (i : Nat) : List GameObject :=
  match l.getLast? with
  | some last => (l.set i last).dropLast
  | none => l

/-- `pick_item_up` from `game_object.rs`: with 26 or more inventory items
only log "inventory full"; otherwise move the object from the world list
into the inventory (by swap-remove) and auto-equip when its slot is free.
`none` models the out-of-bounds index panic on `objects[object_id]`. -/
def pick_item_up (object_id : Nat) (game : Game) (objects : List GameObject) :
    Option (Game × List GameObject) :=
  match objects.get? object_id with
  | none => none
  | some obj =>
    if game.inventory.length ≥ 26 then
      some ({ game with messages := (game.messages.add
          ("Your inventory is full, cannot pick up " ++ obj.name ++ ".") Color.red) }, objects)
    else
      let item := obj
      let objects := swapRemove objects object_id
      let game :=
        { game with messages := game.messages.add ("You picked up a " ++ item.name ++ "!") Color.green }
      let index := game.inventory.length
      let slot := item.equipment.map fun e => e.slot
      let game := { game with inventory := List.append game.inventory [item] }
      match slot with
      | some slot =>
        if (get_equipped_in_slot slot game.inventory).isNone then
          match game.inventory.get? index with
          | some it =>
            let (it, m) := it.equip game.messages
            some ({ game with inventory := game.inventory.set index it, messages := m }, objects)
          | none => none
        else
          some (game, objects)
      | none => some (game, objects)

/-- `PLAYER` from `game_object.rs`: the player is always store index 0. -/
def PLAYER : Nat := 0

/-- `drop_item` from `game_object.rs`: remove the item from the inventory
(`Vec::remove`, shifting), force-dequip it when it is equipment, place it
at the player's position and push it into the world list.  `none` models
the index panics on `inventory.remove` and `objects[PLAYER]`. -/
def drop_item (inventory_id : Nat) (game : Game) (objects : List GameObject) :
    Option (Game × List GameObject) :=
  match game.inventory.get? inventory_id with
  | none => none
  | some item =>
    let game := { game with inventory := game.inventory.eraseIdx inventory_id }
    let (item, msgs) :=
      if item.equipment.isSome then item.dequip game.messages else (item, game.messages)
    match objects.get? PLAYER with
    | none => none
    | some player =>
      let item := item.set_pos player.x player.y
      let msgs := msgs.add ("You dropped a " ++ item.name ++ ".") Color.yellow
      some ({ game with messages := msgs }, List.append objects [item])

/-- `level_up` from `game_object.rs`: when the player's xp reaches
`LEVEL_UP_BASE + level * LEVEL_UP_FACTOR` (level taken before the
increment), bump the level, subtract exactly the threshold from xp, and
apply the chosen stat raise (+20 max hp and +20 hp, +1 power, or +1
defense).  The blocking `level_up_menu` collaborator is modelled by the
`choice : Fin 3` parameter; `none` models the `unwrap` panic on a player
without a fighter (unreachable when the threshold is positive). -/
def level_up (choice : Fin 3) (game : Game) (player : GameObject) :
    Option (Game × GameObject) :=
  let level_up_xp := LEVEL_UP_BASE + player.level * LEVEL_UP_FACTOR
  if (player.fighter.map fun f => f.xp).getD 0 ≥ level_up_xp then
    let player := { player with level := player.level + 1 }
    let game :=
      { game with messages := (game.messages.add
          ("Your battle skills grow stronger!  You reached level " ++ toString player.level ++ "!")
          Color.yellow) }
    match player.fighter with
    | some f =>
      let f := { f with xp := f.xp - level_up_xp }
      let f :=
        match choice with
        | 0 => { f with base_max_hp := f.base_max_hp + 20, hp := f.hp + 20 }
        | 1 => { f with base_power := f.base_power + 1 }
        | 2 => { f with base_defense := f.base_defense + 1 }
      some (game, { player with fighter := some f })
    | none => none
  else
    some (game, player)

/-- `mut_two` from `game_object.rs`: split the slice at the larger index
and return references into the two disjoint halves; `none` models the
`assert!(first_index != second_index)` abort (and index panics). -/
def mut_two {T : Type} (first_index second_index : Nat) (items : List T) :
    Option (T × T) :=
  if first_index = second_index then
    none
  else
    let split_at_index := max first_index second_index
    let first_slice := items.take split_at_index
    let second_slice := items.drop split_at_index
    if first_index < second_index then
      match first_slice.get? first_index, second_slice.get? 0 with
      | some a, some b => some (a, b)
      | _, _ => none
    else
      match second_slice.get? 0, first_slice.get? second_index with
      | some a, some b => some (a, b)
      | _, _ => none

/-- `is_blocked` from `game_object.rs`: the tile blocks, or some blocking
object stands there. -/
def is_blocked (x y : Int) (map : MapF) (objects : List GameObject) : Bool :=
  if (map x y).blocked then
    true
  else
    objects.any fun o => o.blocks && o.pos == (x, y)

/-- `move_by` from `game_object.rs`: step only when the destination is
not blocked.  An out-of-range `id` (a Rust index panic, never reached by
the callers) leaves the list unchanged. -/
def move_by (id : Nat) (dx dy : Int) (map : MapF) (objects : List GameObject) :
    List GameObject :=
  match objects.get? id with
  | none => objects
  | some o =>
    if is_blocked (o.x + dx) (o.y + dy) map objects then
      objects
    else
      objects.set id (o.set_pos (o.x + dx) (o.y + dy))

/-- `ai_confused` from `game.rs`: with `num_turns >= 0` move by the drawn
deltas (each from `gen_range(-1, 2)`) and stay confused with the count
decremented; with `num_turns < 0` revert to the previous AI and do not
move.  The two random draws are the `dx dy` parameters. -/
def ai_confused (monster_id : Nat) (game : Game) (objects : List GameObject)
    (previous_ai : Ai) (num_turns : Int) (dx dy : Int) : Ai × List GameObject :=
  if num_turns ≥ 0 then
    (Ai.confused previous_ai (num_turns - 1), move_by monster_id dx dy game.game_map objects)
  else
    (previous_ai, objects)

def MAP_WIDTH : Int := 80

def MAP_HEIGHT : Int := 43

def ROOM_MAX_SIZE : Int := 10

def ROOM_MIN_SIZE : Int := 6

def MAX_ROOMS : Int := 30

/-- `Rect` from `map.rs`. -/
structure Rect where
  x1 : Int
  y1 : Int
  x2 : Int
  y2 : Int
  deriving DecidableEq, Repr

/-- `Rect::new`. -/
def Rect.new (x y w h : Int) : Rect :=
  { x1 := x, y1 := y, x2 := x + w, y2 := y + h }

/-- `Rect::center` (integer division, as in the source). -/
def Rect.center (r : Rect) : Int × Int :=
  ((r.x1 + r.x2) / 2, (r.y1 + r.y2) / 2)

/-- `Rect::intersects_with`: inclusive bounding-rectangle overlap. -/
def Rect.intersects_with (r other : Rect) : Bool :=
  r.x1 ≤ other.x2 && r.x2 ≥ other.x1 && r.y1 ≤ other.y2 && r.y2 ≥ other.y1

/-- `create_room`: carve the interior `(x1+1..x2) x (y1+1..y2)` to empty. -/
def create_room (room : Rect) (m : MapF) : MapF :=
  fun x y =>
    if room.x1 + 1 ≤ x ∧ x < room.x2 ∧ room.y1 + 1 ≤ y ∧ y < room.y2 then Tile.empty
    else m x y

/-- `create_h_tunnel`: carve row `y` from `min x1 x2` through `max x1 x2`. -/
def create_h_tunnel (x1 x2 y : Int) (m : MapF) : MapF :=
  fun a b =>
    if min x1 x2 ≤ a ∧ a ≤ max x1 x2 ∧ b = y then Tile.empty
    else m a b

/-- `create_v_tunnel`: carve column `x` from `min y1 y2` through `max y1 y2`. -/
def create_v_tunnel (y1 y2 x : Int) (m : MapF) : MapF :=
  fun a b =>
    if a = x ∧ min y1 y2 ≤ b ∧ b ≤ max y1 y2 then Tile.empty
    else m a b

/-- One loop iteration of `make_map` draws `w`, `h` from
`gen_range(ROOM_MIN_SIZE, ROOM_MAX_SIZE + 1)`, `x` from
`gen_range(0, MAP_WIDTH - w)`, `y` from `gen_range(0, MAP_HEIGHT - h)`,
and (when a tunnel is carved) a direction boolean from `rand::random()`.
A `RoomDraw` packages the draws of one iteration. -/
structure RoomDraw where
  w : Int
  h : Int
  x : Int
  y : Int
  dir : Bool
  deriving DecidableEq, Repr

/-- The `gen_range` bounds satisfied by every draw the Rust code makes
(`gen_range(lo, hi)` returns a value in `[lo, hi)`). -/
def RoomDraw.valid (d : RoomDraw) : Prop :=
  ROOM_MIN_SIZE ≤ d.w ∧ d.w ≤ ROOM_MAX_SIZE ∧
  ROOM_MIN_SIZE ≤ d.h ∧ d.h ≤ ROOM_MAX_SIZE ∧
  0 ≤ d.x ∧ d.x < MAP_WIDTH - d.w ∧
  0 ≤ d.y ∧ d.y < MAP_HEIGHT - d.h

instance (d : RoomDraw) : Decidable d.valid := by
  unfold RoomDraw.valid
  infer_instance

/-- The initial `make_map` grid: all walls. -/
def initial_grid : MapF := fun _ _ => Tile.wall

/-- The L-shaped pair of tunnels `make_map` carves between the previous
room's center `(px, py)` and the new room's center `(nx, ny)`: the
`rand::random()` draw `dir` picks horizontal-then-vertical (through the
corner `(nx, py)`) or vertical-then-horizontal (through `(px, ny)`). -/
def carve_tunnels (px py nx ny : Int) (dir : Bool) (m : MapF) : MapF :=
  if dir then
    create_v_tunnel py ny nx (create_h_tunnel px nx py m)
  else
    create_h_tunnel px nx ny (create_v_tunnel py ny px m)

/-- One iteration of the `make_map` room loop: reject the candidate if it
intersects an accepted room, otherwise carve it, and (for every accepted
room but the first) connect its center to the previous accepted room's
center with an L-shaped pair of tunnels whose order the `dir` draw picks. -/
def make_map_step (st : MapF × List Rect) (d : RoomDraw) : MapF × List Rect :=
  let m := st.1
  let rooms := st.2
  let new_room := Rect.new d.x d.y d.w d.h
  let failed := rooms.any fun other_room => new_room.intersects_with other_room
  if failed then
    st
  else
    let m := create_room new_room m
    match rooms.getLast? with
    | none => (m, List.append rooms [new_room])
    | some prev =>
      let px := prev.center.1
      let py := prev.center.2
      let nx := new_room.center.1
      let ny := new_room.center.2
      let m := carve_tunnels px py nx ny d.dir m
      (m, List.append rooms [new_room])

/-- `make_map`'s room-placement loop over the sequence of random draws
(the Rust loop runs `MAX_ROOMS` iterations; the draw list is universally
quantified, covering that).  Returns the final grid and the accepted
rooms in order; the player is placed at the first accepted room's center,
the stairs at the last accepted room's center.  Monster/item placement
(`place_objects`) reads the map but never writes tiles, so it does not
appear in the grid model. -/
def make_map (draws : List RoomDraw) : MapF × List Rect :=
  draws.foldl make_map_step (initial_grid, [])

/-- Iterated damage application: fold `take_damage` over a list of damage
amounts, recording whether any call invoked a death transition (in
`take_damage` the death branch runs exactly when `some` xp is returned). -/
def damage_seq (ds : List Int) (o : GameObject) (game : Game) :
    GameObject × Game × Bool :=
  ds.foldl (fun st d =>
    let r := st.1.take_damage d st.2.1
    (r.1, r.2.1, st.2.2 || r.2.2.isSome)) (o, game, false)

/-- Iterated healing: fold `heal` over a list of amounts. -/
def heal_seq (amounts : List Int) (o : GameObject) (game : Game) : GameObject :=
  amounts.foldl (fun o a => o.heal a game) o

/-- An empty world state over a fully open grid, used as a concrete input. -/
def openGame : Game :=
  { game_map := fun _ _ => Tile.empty, messages := ([] : Messages),
    inventory := [], dungeon_level := 1 }

/-- Concrete player (the spec scenario: power 5, defense 2). -/
def playerW : GameObject :=
  { GameObject.new 0 0 '@' "player" Color.white true with
      alive := true,
      fighter := some { hp := 30, base_max_hp := 30, base_defense := 2,
                        base_power := 5, xp := 0, on_death := DeathCallback.player } }

/-- Concrete monster (the spec scenario: defense 0, hp 10, xp 35). -/
def orcW : GameObject :=
  { GameObject.new 1 0 'o' "orc" Color.desaturatedGreen true with
      alive := true, ai := some Ai.basic,
      fighter := some { hp := 10, base_max_hp := 10, base_defense := 0,
                        base_power := 3, xp := 35, on_death := DeathCallback.monster } }


/-- C1: `attack` computes `damage = attacker.power - defender.defense`
(base stat plus equipped-equipment bonuses, which only the player's
inventory supplies); with `damage <= 0` the defender is untouched and only
a log line is added; with `damage > 0` the defender's hp drops by exactly
`damage`, and if that leaves hp at or below 0 the death transition runs —
`MonsterDeath` unblocks, clears fighter and ai, marks not alive, prefixes
the name with "remains of" — and the defender's banked xp is credited to
the attacker. -/
theorem C1_attack_formula (a b : GameObject) (game : Game) (fa fb : Fighter)
    (ha : a.fighter = some fa) (hb : b.fighter = some fb) :
    (a.power game - b.defense game ≤ 0 →
      a.attack b game = some (a, b,
        { game with messages := (game.messages.add
            (a.name ++ " attacks " ++ b.name ++ " but it has no effect!") Color.white) })) ∧
    (0 < a.power game - b.defense game → 0 < fb.hp - (a.power game - b.defense game) →
      a.attack b game = some (a,
        { b with fighter := some { fb with hp := fb.hp - (a.power game - b.defense game) } },
        { game with messages := (game.messages.add
            (a.name ++ " attacks " ++ b.name ++ " for "
              ++ toString (a.power game - b.defense game) ++ " hit points.") Color.white) })) ∧
    (0 < a.power game - b.defense game → fb.hp - (a.power game - b.defense game) ≤ 0 →
      fb.on_death = DeathCallback.monster →
      a.attack b game = some (
        { a with fighter := some { fa with xp := fa.xp + fb.xp } },
        { b with
            glyph := '%', color := Color.darkRed, blocks := false, alive := false,
            fighter := none, ai := none, name := "remains of " ++ b.name },
        { game with messages := ((game.messages.add
            (a.name ++ " attacks " ++ b.name ++ " for "
              ++ toString (a.power game - b.defense game) ++ " hit points.") Color.white).add
            (b.name ++ " Is dead!") Color.orange) })) ∧
    (0 < a.power game - b.defense game → fb.hp - (a.power game - b.defense game) ≤ 0 →
      fb.on_death = DeathCallback.player →
      a.attack b game = some (
        { a with fighter := some { fa with xp := fa.xp + fb.xp } },
        { b with
            glyph := '%', color := Color.darkRed, alive := false,
            fighter := some { fb with hp := fb.hp - (a.power game - b.defense game) } },
        { game with messages := ((game.messages.add
            (a.name ++ " attacks " ++ b.name ++ " for "
              ++ toString (a.power game - b.defense game) ++ " hit points.") Color.white).add
            "You died!" Color.red) })) := by
  refine ⟨?_, ?_, ?_, ?_⟩
  · intro h
    simp [GameObject.attack, not_lt.mpr h]
  · intro h h2
    simp [GameObject.attack, GameObject.take_damage, hb, ha, h, not_le.mpr h2]
  · intro h h2 h3
    simp [GameObject.attack, GameObject.take_damage, hb, ha, h, h2, h3,
      DeathCallback.callback, monster_death]
  · intro h h2 h3
    simp [GameObject.attack, GameObject.take_damage, hb, ha, h, h2, h3,
      DeathCallback.callback, player_death]

/-- C1 witness: the spec scenario — player with power 5 attacks the orc
with defense 0 and hp 10; the orc's hp drops to 5. -/
theorem C1_attack_formula_witness :
    playerW.attack orcW openGame = some (playerW,
      { orcW with fighter := (some
          { hp := 10 - (playerW.power openGame - orcW.defense openGame),
            base_max_hp := 10, base_defense := 0, base_power := 3, xp := 35,
            on_death := DeathCallback.monster }) },
      { openGame with messages := (openGame.messages.add
          (playerW.name ++ " attacks " ++ orcW.name ++ " for "
            ++ toString (playerW.power openGame - orcW.defense openGame) ++ " hit points.")
          Color.white) }) := by
  have h := (C1_attack_formula playerW orcW openGame
      { hp := 30, base_max_hp := 30, base_defense := 2, base_power := 5, xp := 0,
        on_death := DeathCallback.player }
      { hp := 10, base_max_hp := 10, base_defense := 0, base_power := 3, xp := 35,
        on_death := DeathCallback.monster } rfl rfl).2.1 (by decide) (by decide)
  exact h

/-- The equipped sword occupying the right-hand slot. -/
def swordA : GameObject :=
  { GameObject.new 0 0 '/' "sword" Color.lightBlue false with
      item := some Item.sword,
      equipment := some { slot := Slot.rightHand, equipped := true,
                          power_bonus := 3, defense_bonus := 0, max_hp_bonus := 0 } }

/-- A second sword for the same slot, not yet equipped. -/
def swordB : GameObject :=
  { GameObject.new 0 0 '/' "sword" Color.lightBlue false with
      item := some Item.sword,
      equipment := some { slot := Slot.rightHand, equipped := false,
                          power_bonus := 2, defense_bonus := 0, max_hp_bonus := 0 } }

/-- Inventory holding both swords, the first equipped. -/
def gearGame : Game :=
  { game_map := initial_grid, messages := ([] : Messages),
    inventory := [swordA, swordB], dungeon_level := 1 }

/-- C2: the slot-exclusivity invariant is broken by the code: `dequip`'s
guard is inverted (`if !equipment.equipped`), so dequipping an equipped
item is a no-op.  `toggle_equipment` on the second sword therefore fails
to unequip the prior right-hand occupant and leaves two items equipped in
the same slot (before: one equipped right-hand item, after: two — the
final inventory shows the first sword still equipped next to the newly
equipped second one), and `drop_item` on the equipped sword pushes it
into the world with `equipped` still true instead of force-unequipping. -/
theorem C2_slot_exclusivity_violated :
    (gearGame.inventory.countP fun it =>
      (it.equipment.map fun e => e.equipped && e.slot == Slot.rightHand).getD false) = 1 ∧
    ((toggle_equipment 1 gearGame).1.inventory.countP fun it =>
      (it.equipment.map fun e => e.equipped && e.slot == Slot.rightHand).getD false) = 2 ∧
    (toggle_equipment 1 gearGame).1.inventory =
      [swordA, { swordB with equipment := (some
          { slot := Slot.rightHand, equipped := true,
            power_bonus := 2, defense_bonus := 0, max_hp_bonus := 0 }) }] ∧
    swordA.dequip ([] : Messages) = (swordA, ([] : Messages)) ∧
    ((drop_item 0 gearGame [playerW]).map fun r =>
      r.2.map fun o => (o.equipment.map fun e => e.equipped).getD false) =
      some [false, true] := by
  exact ⟨by decide, by decide, by decide, by decide, by decide⟩

/-- A confused monster standing in the open at (5, 5). -/
def confGuy : GameObject :=
  { GameObject.new 5 5 'o' "orc" Color.desaturatedGreen true with
      alive := true, ai := some (Ai.confused Ai.basic 0) }

/-- C3 counterexample: resolving a turn with `Confused(prev, 0)` does
not revert — the guard is `num_turns >= 0`, so the entity moves by the
drawn delta (here (1, 0), to an unblocked tile) and becomes
`Confused(prev, -1)`; reversion would only happen on the following turn. -/
theorem C3_confused_zero_counterexample :
    ai_confused 0 openGame [confGuy] Ai.basic 0 1 0 ≠ (Ai.basic, [confGuy]) ∧
    ai_confused 0 openGame [confGuy] Ai.basic 0 1 0 =
      (Ai.confused Ai.basic (-1), [confGuy.set_pos 6 5]) := by
  exact ⟨by decide, by decide⟩

/-- C3 amended: with `n < 0` the confused entity reverts to its previous
AI and performs no action that turn (so `Confused(prev, -1)` — which is
what a turn at `Confused(prev, 0)` leaves behind — reverts on its very
next turn with no movement); with `n >= 0` (including 0) it stays
confused with the counter decremented and moves by the drawn single-tile
deltas, the move applying only if the destination is unblocked. -/
theorem C3_confused_amended (id : Nat) (game : Game) (objects : List GameObject)
    (prev : Ai) (n dx dy : Int) (o : GameObject) (ho : objects.get? id = some o) :
    (n < 0 → ai_confused id game objects prev n dx dy = (prev, objects)) ∧
    (0 ≤ n →
      (ai_confused id game objects prev n dx dy).1 = Ai.confused prev (n - 1) ∧
      (ai_confused id game objects prev n dx dy).2 =
        if is_blocked (o.x + dx) (o.y + dy) game.game_map objects then objects
        else objects.set id (o.set_pos (o.x + dx) (o.y + dy))) := by
  constructor
  · intro h
    simp [ai_confused, not_le.mpr h]
  · intro h
    have ho' : objects[id]? = some o := by
      rw [← List.get?_eq_getElem?]
      exact ho
    simp [ai_confused, h, move_by, ho']

/-- C3 witness: a monster at `Confused(basic, -1)` reverts to `basic` on
its turn, and the object list is untouched. -/
theorem C3_confused_amended_witness :
    ai_confused 0 openGame [confGuy] Ai.basic (-1) 1 0 = (Ai.basic, [confGuy]) :=
  (C3_confused_amended 0 openGame [confGuy] Ai.basic (-1) 1 0 confGuy rfl).1 (by decide)

/-- A player already dead: `alive = false`, fighter still present with hp 0
(exactly what `player_death` leaves behind, since it clears nothing). -/
def deadPlayer : GameObject :=
  { GameObject.new 1 1 '%' "player" Color.darkRed true with
      alive := false,
      fighter := some { hp := 0, base_max_hp := 30, base_defense := 2,
                        base_power := 5, xp := 0, on_death := DeathCallback.player } }

/-- C4 counterexample: `take_damage` never consults `alive`, and
`player_death` does not clear the fighter, so damaging an already-dead
player (alive = false) runs the death transition again: the call returns
the banked xp (`some 0`, the marker of the death branch) and appends a
second "You died!" message. -/
theorem C4_dead_player_counterexample :
    deadPlayer.alive = false ∧
    (deadPlayer.take_damage 5 openGame).2.2 = some 0 ∧
    (deadPlayer.take_damage 5 openGame).2.1.messages =
      openGame.messages.add "You died!" Color.red := by
  exact ⟨by decide, by decide, by decide⟩

/-- C4 amended: the death transition is one-shot for monsters — running
`monster_death` clears the fighter, and an entity without a fighter is
completely inert under any further damage sequence (object, game and the
death-transition flag all unchanged).  The player's transition keeps the
fighter and so can re-run, as the counterexample shows. -/
theorem C4_death_idempotence_amended (m : GameObject) (game : Game) :
    (monster_death m game).1.fighter = none ∧
    (∀ (o : GameObject) (g : Game) (ds : List Int), o.fighter = none →
      damage_seq ds o g = (o, g, false)) := by
  constructor
  · rfl
  · intro o g ds h
    induction ds with
    | nil => rfl
    | cons d ds ih =>
      have hstep : o.take_damage d g = (o, g, none) := by
        simp [GameObject.take_damage, h]
      have hcons : damage_seq (d :: ds) o g = damage_seq ds o g := by
        simp [damage_seq, hstep]
      rw [hcons]
      exact ih

/-- C4 witness: the orc's corpse (fighter cleared by `monster_death`)
absorbs a damage sequence with no state change and no death transition. -/
theorem C4_death_idempotence_amended_witness :
    (monster_death orcW openGame).1.fighter = none ∧
    damage_seq [7, -2, 100] (GameObject.new 2 2 '%' "remains of orc" Color.darkRed false)
      openGame =
      (GameObject.new 2 2 '%' "remains of orc" Color.darkRed false, openGame, false) :=
  ⟨(C4_death_idempotence_amended orcW openGame).1,
    (C4_death_idempotence_amended orcW openGame).2
      (GameObject.new 2 2 '%' "remains of orc" Color.darkRed false) openGame
      [7, -2, 100] (by decide)⟩

/-- The upper clamp in `heal` written as a `min`. -/
theorem clamp_as_min (x m : Int) : (if x > m then m else x) = min x m := by
  split <;> omega

/-- Healing never changes the effective max hp (only `hp` moves). -/
theorem heal_max_hp (o : GameObject) (amount : Int) (game : Game) :
    (o.heal amount game).max_hp game = o.max_hp game := by
  unfold GameObject.heal
  cases h : o.fighter with
  | none => rfl
  | some f => simp [GameObject.max_hp, GameObject.get_all_equipped, h]

/-- What one `heal` call does to the fighter. -/
theorem heal_fighter (o : GameObject) (game : Game) (f : Fighter)
    (h : o.fighter = some f) (amount : Int) :
    (o.heal amount game).fighter = some { f with hp := min (f.hp + amount) (o.max_hp game) } := by
  simp only [GameObject.heal, h]
  rw [clamp_as_min]

/-- A monster hurt down to 3 hp. -/
def orcHurt : GameObject :=
  { GameObject.new 2 2 'o' "orc" Color.desaturatedGreen true with
      alive := true,
      fighter := some { hp := 3, base_max_hp := 10, base_defense := 0,
                        base_power := 3, xp := 35, on_death := DeathCallback.monster } }

/-- A monster whose hp already went negative (damage does not clamp). -/
def woundedOrc : GameObject :=
  { GameObject.new 2 2 'o' "orc" Color.desaturatedGreen true with
      alive := true,
      fighter := some { hp := -10, base_max_hp := 10, base_defense := 0,
                        base_power := 3, xp := 35, on_death := DeathCallback.monster } }

/-- C5 counterexample: `heal` has no lower clamp — healing a combatant
whose hp is -10 by 5 leaves hp at -5, outside `[0, effective_max_hp]`. -/
theorem C5_no_lower_clamp_counterexample :
    ((woundedOrc.heal 5 openGame).fighter.map fun fr => fr.hp) = some (-5) ∧
    ¬ (0 : Int) ≤ -5 := by
  exact ⟨by decide, by decide⟩

/-- C5 amended: a `heal` call sets hp to exactly
`min (hp + amount) effective_max_hp` — so hp is bounded above by the
effective max after every call of every heal sequence, but it is not
clamped below: hp ends nonnegative only when `hp + amount` is. -/
theorem C5_heal_amended (o : GameObject) (game : Game) (f : Fighter)
    (h : o.fighter = some f) :
    (∀ amount, (o.heal amount game).fighter =
      some { f with hp := min (f.hp + amount) (o.max_hp game) }) ∧
    (∀ (a : Int) (amounts : List Int),
      ((heal_seq (a :: amounts) o game).fighter.map fun fr => fr.hp).getD 0 ≤ o.max_hp game) := by
  constructor
  · exact heal_fighter o game f h
  · intro a amounts
    induction amounts generalizing o f a with
    | nil =>
      have := heal_fighter o game f h a
      simp [heal_seq, this]
    | cons a' as ih =>
      have hstep : heal_seq (a :: a' :: as) o game = heal_seq (a' :: as) (o.heal a game) game := rfl
      rw [hstep]
      have hf' := heal_fighter o game f h a
      have := ih (o.heal a game) { f with hp := min (f.hp + a) (o.max_hp game) } hf' a'
      rwa [heal_max_hp] at this

/-- C5 witness: healing the hurt orc by 40 caps hp at the effective max,
and a one-element heal sequence respects the upper bound. -/
theorem C5_heal_amended_witness :
    (orcHurt.heal 40 openGame).fighter =
      some { hp := min (3 + 40) (orcHurt.max_hp openGame), base_max_hp := 10,
             base_defense := 0, base_power := 3, xp := 35,
             on_death := DeathCallback.monster } ∧
    ((heal_seq [40] orcHurt openGame).fighter.map fun fr => fr.hp).getD 0 ≤
      orcHurt.max_hp openGame :=
  ⟨(C5_heal_amended orcHurt openGame
      { hp := 3, base_max_hp := 10, base_defense := 0, base_power := 3, xp := 35,
        on_death := DeathCallback.monster } rfl).1 40,
    (C5_heal_amended orcHurt openGame
      { hp := 3, base_max_hp := 10, base_defense := 0, base_power := 3, xp := 35,
        on_death := DeathCallback.monster } rfl).2 40 []⟩

/-- C6: `level_up` changes nothing unless the player's xp has reached
`LEVEL_UP_BASE + level * LEVEL_UP_FACTOR` (level taken before the
increment); when it fires, the level rises by 1 and exactly the threshold
is subtracted from xp — the surplus carries forward (never a reset to 0)
and the resulting xp is nonnegative because the call fired only when
eligible. -/
theorem C6_level_up_spec (choice : Fin 3) (game : Game) (p : GameObject) (f : Fighter)
    (hf : p.fighter = some f) :
    (f.xp < LEVEL_UP_BASE + p.level * LEVEL_UP_FACTOR →
      level_up choice game p = some (game, p)) ∧
    (LEVEL_UP_BASE + p.level * LEVEL_UP_FACTOR ≤ f.xp →
      ∃ g' p', level_up choice game p = some (g', p') ∧
        p'.level = p.level + 1 ∧
        (p'.fighter.map fun fr => fr.xp) =
          some (f.xp - (LEVEL_UP_BASE + p.level * LEVEL_UP_FACTOR)) ∧
        0 ≤ f.xp - (LEVEL_UP_BASE + p.level * LEVEL_UP_FACTOR) ∧
        g'.inventory = game.inventory ∧
        g'.messages = game.messages.add
          ("Your battle skills grow stronger!  You reached level "
            ++ toString (p.level + 1) ++ "!") Color.yellow) := by
  constructor
  · intro h
    simp [level_up, hf, not_le.mpr h]
  · intro h
    have hxp : (Option.map (fun fr => fr.xp) (some f)).getD 0 = f.xp := rfl
    simp only [level_up, hf, hxp, ge_iff_le, if_pos h]
    fin_cases choice
    · exact ⟨_, _, rfl, rfl, by simp, by omega, rfl, rfl⟩
    · exact ⟨_, _, rfl, rfl, by simp, by omega, rfl, rfl⟩
    · exact ⟨_, _, rfl, rfl, by simp, by omega, rfl, rfl⟩

/-- An experienced player: level 1, xp 500 (threshold 350). -/
def xpPlayerW : GameObject :=
  { GameObject.new 0 0 '@' "player" Color.white true with
      alive := true,
      fighter := some { hp := 30, base_max_hp := 30, base_defense := 2,
                        base_power := 5, xp := 500, on_death := DeathCallback.player } }

/-- C6 witness: at level 1 with 500 xp the level-up fires, leaving
level 2 and xp 150 = 500 - 350. -/
theorem C6_level_up_spec_witness :
    ∃ g' p', level_up 1 openGame xpPlayerW = some (g', p') ∧
      p'.level = xpPlayerW.level + 1 ∧
      (p'.fighter.map fun fr => fr.xp) =
        some (500 - (LEVEL_UP_BASE + xpPlayerW.level * LEVEL_UP_FACTOR)) ∧
      0 ≤ (500 : Int) - (LEVEL_UP_BASE + xpPlayerW.level * LEVEL_UP_FACTOR) ∧
      g'.inventory = openGame.inventory ∧
      g'.messages = openGame.messages.add
        ("Your battle skills grow stronger!  You reached level "
          ++ toString (xpPlayerW.level + 1) ++ "!") Color.yellow :=
  (C6_level_up_spec 1 openGame xpPlayerW
      { hp := 30, base_max_hp := 30, base_defense := 2, base_power := 5, xp := 500,
        on_death := DeathCallback.player } rfl).2 (by decide)

/-- C8: for distinct in-bounds indices, `mut_two` yields exactly the
elements at `first_index` and `second_index`, in that order, drawn from
the two disjoint halves of the `split_at_mut`; equal indices trip the
assertion (modelled `none`) instead of returning. -/
theorem C8_mut_two_spec {T : Type} (i j : Nat) (items : List T) (a b : T)
    (hij : i ≠ j) (ha : items.get? i = some a) (hb : items.get? j = some b) :
    mut_two i j items = some (a, b) ∧ mut_two i i items = none := by
  constructor
  · rw [List.get?_eq_getElem?] at ha hb
    rcases Nat.lt_or_ge i j with hlt | hge
    · have hmax : max i j = j := Nat.max_eq_right (Nat.le_of_lt hlt)
      simp only [mut_two, if_neg hij, hmax, if_pos hlt, List.get?_eq_getElem?,
        List.getElem?_take, List.getElem?_drop, if_pos hlt, Nat.add_zero, ha, hb]
    · have hlt' : j < i := Nat.lt_of_le_of_ne hge (Ne.symm hij)
      have hmax : max i j = i := Nat.max_eq_left hge
      have hni : ¬ i < j := Nat.not_lt.mpr hge
      simp only [mut_two, if_neg hij, hmax, if_neg hni, List.get?_eq_getElem?,
        List.getElem?_take, List.getElem?_drop, if_pos hlt', Nat.add_zero, ha, hb]
  · simp [mut_two]

/-- C8 witness: on `[10, 20, 30]` with indices 0 and 2, `mut_two` returns
`(10, 30)`, and with equal indices 0, 0 it aborts. -/
theorem C8_mut_two_spec_witness :
    mut_two 0 2 [10, 20, 30] = some (10, 30) ∧ mut_two 0 0 [10, 20, 30] = none :=
  C8_mut_two_spec 0 2 [10, 20, 30] 10 30 (by decide) (by decide) (by decide)

/-- C9: with the inventory already at 26 items, `pick_item_up` appends
only the "inventory is full" log line; the world object list (and so the
targeted object and its position) and the inventory are returned exactly
as they were. -/
theorem C9_pick_item_up_full (object_id : Nat) (game : Game) (objects : List GameObject)
    (obj : GameObject) (hobj : objects.get? object_id = some obj)
    (hlen : game.inventory.length = 26) :
    pick_item_up object_id game objects =
      some ({ game with messages := (game.messages.add
          ("Your inventory is full, cannot pick up " ++ obj.name ++ ".") Color.red) },
        objects) := by
  rw [List.get?_eq_getElem?] at hobj
  simp [pick_item_up, hobj, hlen]

/-- A healing potion object lying in the world. -/
def potionW : GameObject :=
  { GameObject.new 4 4 '!' "healing potion" Color.violet false with
      item := some Item.heal, always_visible := true }

/-- A game whose inventory is exactly full (26 potions). -/
def fullGame : Game :=
  { game_map := initial_grid, messages := ([] : Messages),
    inventory := List.replicate 26 potionW, dungeon_level := 1 }

/-- C9 witness: picking up a potion with 26 items in the inventory only
logs the full-inventory message and leaves the world list unchanged. -/
theorem C9_pick_item_up_full_witness :
    pick_item_up 0 fullGame [potionW] =
      some ({ fullGame with messages := (fullGame.messages.add
          ("Your inventory is full, cannot pick up " ++ potionW.name ++ ".") Color.red) },
        [potionW]) :=
  C9_pick_item_up_full 0 fullGame [potionW] potionW (by decide) (by decide)

/-- Orthogonal adjacency of two grid cells: they differ by exactly one
step in exactly one axis. -/
def OrthAdj (p q : Int × Int) : Prop :=
  (q.1 - p.1).natAbs + (q.2 - p.2).natAbs = 1

/-- Reachability between cells through unblocked tiles of a grid: the
reflexive closure of stepping to an orthogonally adjacent unblocked cell
(the spec's flood-fill notion of connectivity). -/
inductive Reach (m : MapF) : Int × Int → Int × Int → Prop where
  | refl (p : Int × Int) : Reach m p p
  | step {p q r : Int × Int} :
      Reach m p q → OrthAdj q r → (m r.1 r.2).blocked = false → Reach m p r

/-- Reachability composes. -/
theorem reach_trans {m : MapF} {p q r : Int × Int}
    (h1 : Reach m p q) (h2 : Reach m q r) : Reach m p r := by
  induction h2 with
  | refl => exact h1
  | step _ adj hun ih => exact ih.step adj hun

/-- Carving only ever unblocks, so reachability is monotone along the
generator's writes. -/
theorem reach_mono {m m' : MapF}
    (hm : ∀ x y, (m x y).blocked = false → (m' x y).blocked = false)
    {p q : Int × Int} (h : Reach m p q) : Reach m' p q := by
  induction h with
  | refl => exact Reach.refl _
  | step _ adj hun ih => exact ih.step adj (hm _ _ hun)

/-- Walk right along an unblocked row segment. -/
theorem reach_row_right (m : MapF) (y a : Int) (n : Nat)
    (h : ∀ x : Int, a ≤ x → x ≤ a + n → (m x y).blocked = false) :
    Reach m (a, y) (a + n, y) := by
  induction n with
  | zero => simpa using Reach.refl (a, y)
  | succ k ih =>
    have hk : Reach m (a, y) (a + k, y) := ih fun x hx1 hx2 => h x hx1 (by omega)
    refine hk.step ?_ (h (a + (k + 1 : Nat)) (by omega) (by omega))
    simp only [OrthAdj]
    omega

/-- Walk left along an unblocked row segment. -/
theorem reach_row_left (m : MapF) (y b : Int) (n : Nat)
    (h : ∀ x : Int, b ≤ x → x ≤ b + n → (m x y).blocked = false) :
    Reach m (b + n, y) (b, y) := by
  induction n with
  | zero => simpa using Reach.refl (b, y)
  | succ k ih =>
    have hk : Reach m (b + k, y) (b, y) := ih fun x hx1 hx2 => h x hx1 (by omega)
    refine reach_trans (Reach.step (Reach.refl _) ?_ (h (b + k) (by omega) (by omega))) hk
    simp only [OrthAdj]
    omega

/-- Two cells of a fully unblocked row segment are mutually reachable. -/
theorem reach_row (m : MapF) (a b y : Int)
    (h : ∀ x : Int, min a b ≤ x → x ≤ max a b → (m x y).blocked = false) :
    Reach m (a, y) (b, y) := by
  rcases le_total a b with hab | hba
  · have hb : b = a + ((b - a).toNat : Int) := by omega
    rw [hb]
    exact reach_row_right m y a (b - a).toNat fun x h1 h2 => h x (by omega) (by omega)
  · have ha : a = b + ((a - b).toNat : Int) := by omega
    rw [ha]
    exact reach_row_left m y b (a - b).toNat fun x h1 h2 => h x (by omega) (by omega)

/-- Walk up along an unblocked column segment. -/
theorem reach_col_up (m : MapF) (x a : Int) (n : Nat)
    (h : ∀ y : Int, a ≤ y → y ≤ a + n → (m x y).blocked = false) :
    Reach m (x, a) (x, a + n) := by
  induction n with
  | zero => simpa using Reach.refl (x, a)
  | succ k ih =>
    have hk : Reach m (x, a) (x, a + k) := ih fun y hy1 hy2 => h y hy1 (by omega)
    refine hk.step ?_ (h (a + (k + 1 : Nat)) (by omega) (by omega))
    simp only [OrthAdj]
    omega

/-- Walk down along an unblocked column segment. -/
theorem reach_col_down (m : MapF) (x b : Int) (n : Nat)
    (h : ∀ y : Int, b ≤ y → y ≤ b + n → (m x y).blocked = false) :
    Reach m (x, b + n) (x, b) := by
  induction n with
  | zero => simpa using Reach.refl (x, b)
  | succ k ih =>
    have hk : Reach m (x, b + k) (x, b) := ih fun y hy1 hy2 => h y hy1 (by omega)
    refine reach_trans (Reach.step (Reach.refl _) ?_ (h (b + k) (by omega) (by omega))) hk
    simp only [OrthAdj]
    omega

/-- Two cells of a fully unblocked column segment are mutually reachable. -/
theorem reach_col (m : MapF) (a b x : Int)
    (h : ∀ y : Int, min a b ≤ y → y ≤ max a b → (m x y).blocked = false) :
    Reach m (x, a) (x, b) := by
  rcases le_total a b with hab | hba
  · have hb : b = a + ((b - a).toNat : Int) := by omega
    rw [hb]
    exact reach_col_up m x a (b - a).toNat fun y h1 h2 => h y (by omega) (by omega)
  · have ha : a = b + ((a - b).toNat : Int) := by omega
    rw [ha]
    exact reach_col_down m x b (a - b).toNat fun y h1 h2 => h y (by omega) (by omega)

/-- Any two cells of a fully unblocked rectangle are mutually reachable
(L-shaped path inside the rectangle). -/
theorem reach_rect (m : MapF) (x1 x2 y1 y2 : Int)
    (h : ∀ x y : Int, x1 ≤ x → x ≤ x2 → y1 ≤ y → y ≤ y2 → (m x y).blocked = false)
    (p q : Int × Int)
    (hp1 : x1 ≤ p.1) (hp2 : p.1 ≤ x2) (hp3 : y1 ≤ p.2) (hp4 : p.2 ≤ y2)
    (hq1 : x1 ≤ q.1) (hq2 : q.1 ≤ x2) (hq3 : y1 ≤ q.2) (hq4 : q.2 ≤ y2) :
    Reach m p q := by
  have h1 : Reach m (p.1, p.2) (q.1, p.2) :=
    reach_row m p.1 q.1 p.2 fun x hx1 hx2 => h x p.2 (by omega) (by omega) hp3 hp4
  have h2 : Reach m (q.1, p.2) (q.1, q.2) :=
    reach_col m p.2 q.2 q.1 fun y hy1 hy2 => h q.1 y hq1 hq2 (by omega) (by omega)
  exact reach_trans h1 h2

/-- Cells inside the carved interior of a room are unblocked. -/
theorem create_room_unblocked (room : Rect) (m : MapF) (x y : Int)
    (hx1 : room.x1 + 1 ≤ x) (hx2 : x < room.x2)
    (hy1 : room.y1 + 1 ≤ y) (hy2 : y < room.y2) :
    ((create_room room m) x y).blocked = false := by
  simp [create_room, hx1, hx2, hy1, hy2, Tile.empty]

/-- Carving a room never blocks a cell. -/
theorem create_room_mono (room : Rect) (m : MapF) (x y : Int)
    (h : (m x y).blocked = false) : ((create_room room m) x y).blocked = false := by
  simp only [create_room]
  split
  · rfl
  · exact h

/-- Outside the carved interior, `create_room` leaves the map unchanged. -/
theorem create_room_outside (room : Rect) (m : MapF) (x y : Int)
    (h : ¬ (room.x1 + 1 ≤ x ∧ x < room.x2 ∧ room.y1 + 1 ≤ y ∧ y < room.y2)) :
    (create_room room m) x y = m x y := by
  simp only [create_room]
  rw [if_neg h]

/-- Cells of a horizontal tunnel are unblocked. -/
theorem create_h_tunnel_unblocked (x1 x2 y : Int) (m : MapF) (a : Int)
    (h1 : min x1 x2 ≤ a) (h2 : a ≤ max x1 x2) :
    ((create_h_tunnel x1 x2 y m) a y).blocked = false := by
  simp [create_h_tunnel, h1, h2, Tile.empty]

/-- Carving a horizontal tunnel never blocks a cell. -/
theorem create_h_tunnel_mono (x1 x2 y : Int) (m : MapF) (a b : Int)
    (h : (m a b).blocked = false) : ((create_h_tunnel x1 x2 y m) a b).blocked = false := by
  simp only [create_h_tunnel]
  split
  · rfl
  · exact h

/-- Off the carved row segment, `create_h_tunnel` leaves the map unchanged. -/
theorem create_h_tunnel_outside (x1 x2 y : Int) (m : MapF) (a b : Int)
    (h : ¬ (min x1 x2 ≤ a ∧ a ≤ max x1 x2 ∧ b = y)) :
    (create_h_tunnel x1 x2 y m) a b = m a b := by
  simp only [create_h_tunnel]
  rw [if_neg h]

/-- Cells of a vertical tunnel are unblocked. -/
theorem create_v_tunnel_unblocked (y1 y2 x : Int) (m : MapF) (b : Int)
    (h1 : min y1 y2 ≤ b) (h2 : b ≤ max y1 y2) :
    ((create_v_tunnel y1 y2 x m) x b).blocked = false := by
  simp [create_v_tunnel, h1, h2, Tile.empty]

/-- Carving a vertical tunnel never blocks a cell. -/
theorem create_v_tunnel_mono (y1 y2 x : Int) (m : MapF) (a b : Int)
    (h : (m a b).blocked = false) : ((create_v_tunnel y1 y2 x m) a b).blocked = false := by
  simp only [create_v_tunnel]
  split
  · rfl
  · exact h

/-- Off the carved column segment, `create_v_tunnel` leaves the map unchanged. -/
theorem create_v_tunnel_outside (y1 y2 x : Int) (m : MapF) (a b : Int)
    (h : ¬ (a = x ∧ min y1 y2 ≤ b ∧ b ≤ max y1 y2)) :
    (create_v_tunnel y1 y2 x m) a b = m a b := by
  simp only [create_v_tunnel]
  rw [if_neg h]

/-- Carving the connecting tunnels never blocks a cell. -/
theorem carve_tunnels_mono (px py nx ny : Int) (dir : Bool) (m1 : MapF) (x y : Int)
    (h : (m1 x y).blocked = false) :
    ((carve_tunnels px py nx ny dir m1) x y).blocked = false := by
  cases dir with
  | true =>
    simp only [carve_tunnels, if_true]
    exact create_v_tunnel_mono _ _ _ _ _ _ (create_h_tunnel_mono _ _ _ _ _ _ h)
  | false =>
    simp only [carve_tunnels, Bool.false_eq_true, if_false]
    exact create_h_tunnel_mono _ _ _ _ _ _ (create_v_tunnel_mono _ _ _ _ _ _ h)

/-- Every cell of the horizontal leg of the L-tunnel is unblocked. -/
theorem carve_tunnels_row_cells (px py nx ny : Int) (m1 : MapF) (t : Int)
    (h1 : min px nx ≤ t) (h2 : t ≤ max px nx) :
    ((carve_tunnels px py nx ny true m1) t py).blocked = false := by
  simp only [carve_tunnels, if_true]
  exact create_v_tunnel_mono _ _ _ _ _ _ (create_h_tunnel_unblocked _ _ _ _ _ h1 h2)

/-- Every cell of the vertical leg of the L-tunnel is unblocked. -/
theorem carve_tunnels_col_cells (px py nx ny : Int) (m1 : MapF) (t : Int)
    (h1 : min py ny ≤ t) (h2 : t ≤ max py ny) :
    ((carve_tunnels px py nx ny true m1) nx t).blocked = false := by
  simp only [carve_tunnels, if_true]
  exact create_v_tunnel_unblocked _ _ _ _ _ h1 h2

/-- Every cell of the vertical leg of the flipped L-tunnel is unblocked. -/
theorem carve_tunnels_col_cells_f (px py nx ny : Int) (m1 : MapF) (t : Int)
    (h1 : min py ny ≤ t) (h2 : t ≤ max py ny) :
    ((carve_tunnels px py nx ny false m1) px t).blocked = false := by
  simp only [carve_tunnels, Bool.false_eq_true, if_false]
  exact create_h_tunnel_mono _ _ _ _ _ _ (create_v_tunnel_unblocked _ _ _ _ _ h1 h2)

/-- Every cell of the horizontal leg of the flipped L-tunnel is unblocked. -/
theorem carve_tunnels_row_cells_f (px py nx ny : Int) (m1 : MapF) (t : Int)
    (h1 : min px nx ≤ t) (h2 : t ≤ max px nx) :
    ((carve_tunnels px py nx ny false m1) t ny).blocked = false := by
  simp only [carve_tunnels, Bool.false_eq_true, if_false]
  exact create_h_tunnel_unblocked _ _ _ _ _ h1 h2

/-- The L-tunnel connects the two room centers, in either carving order. -/
theorem carve_tunnels_endpoint (px py nx ny : Int) (dir : Bool) (m1 : MapF) :
    Reach (carve_tunnels px py nx ny dir m1) (px, py) (nx, ny) := by
  cases dir with
  | true =>
    have hrow : Reach (carve_tunnels px py nx ny true m1) (px, py) (nx, py) :=
      reach_row _ px nx py fun t ht1 ht2 =>
        carve_tunnels_row_cells px py nx ny m1 t (by omega) (by omega)
    have hcol : Reach (carve_tunnels px py nx ny true m1) (nx, py) (nx, ny) :=
      reach_col _ py ny nx fun t ht1 ht2 =>
        carve_tunnels_col_cells px py nx ny m1 t (by omega) (by omega)
    exact reach_trans hrow hcol
  | false =>
    have hcol : Reach (carve_tunnels px py nx ny false m1) (px, py) (px, ny) :=
      reach_col _ py ny px fun t ht1 ht2 =>
        carve_tunnels_col_cells_f px py nx ny m1 t (by omega) (by omega)
    have hrow : Reach (carve_tunnels px py nx ny false m1) (px, ny) (nx, ny) :=
      reach_row _ px nx ny fun t ht1 ht2 =>
        carve_tunnels_row_cells_f px py nx ny m1 t (by omega) (by omega)
    exact reach_trans hcol hrow

/-- Decomposition of an unblocked cell after tunnel carving: it was
already unblocked, or it is a carved tunnel cell — in which case it is
reachable from the previous center and lies in the bounding box of the
two centers. -/
theorem carve_tunnels_decomp (px py nx ny : Int) (dir : Bool) (m1 : MapF) (x y : Int)
    (h : ((carve_tunnels px py nx ny dir m1) x y).blocked = false) :
    (m1 x y).blocked = false ∨
      (Reach (carve_tunnels px py nx ny dir m1) (px, py) (x, y) ∧
        min px nx ≤ x ∧ x ≤ max px nx ∧ min py ny ≤ y ∧ y ≤ max py ny) := by
  cases dir with
  | true =>
    by_cases hv : x = nx ∧ min py ny ≤ y ∧ y ≤ max py ny
    · right
      obtain ⟨hvx, hv1, hv2⟩ := hv
      subst hvx
      refine ⟨?_, by omega, by omega, hv1, hv2⟩
      have hrow : Reach (carve_tunnels px py x ny true m1) (px, py) (x, py) :=
        reach_row _ px x py fun t ht1 ht2 =>
          carve_tunnels_row_cells px py x ny m1 t (by omega) (by omega)
      have hcol : Reach (carve_tunnels px py x ny true m1) (x, py) (x, y) :=
        reach_col _ py y x fun t ht1 ht2 =>
          carve_tunnels_col_cells px py x ny m1 t (by omega) (by omega)
      exact reach_trans hrow hcol
    · have hred : (carve_tunnels px py nx ny true m1) x y =
          (create_h_tunnel px nx py m1) x y := by
        simp only [carve_tunnels, if_true]
        exact create_v_tunnel_outside py ny nx _ x y hv
      by_cases hh : min px nx ≤ x ∧ x ≤ max px nx ∧ y = py
      · right
        obtain ⟨hh1, hh2, hhy⟩ := hh
        subst hhy
        refine ⟨?_, hh1, hh2, by omega, by omega⟩
        exact reach_row _ px x y fun t ht1 ht2 =>
          carve_tunnels_row_cells px y nx ny m1 t (by omega) (by omega)
      · left
        rw [hred, create_h_tunnel_outside px nx py m1 x y hh] at h
        exact h
  | false =>
    by_cases hh : min px nx ≤ x ∧ x ≤ max px nx ∧ y = ny
    · right
      obtain ⟨hh1, hh2, hhy⟩ := hh
      subst hhy
      refine ⟨?_, hh1, hh2, by omega, by omega⟩
      have hcol : Reach (carve_tunnels px py nx y false m1) (px, py) (px, y) :=
        reach_col _ py y px fun t ht1 ht2 =>
          carve_tunnels_col_cells_f px py nx y m1 t (by omega) (by omega)
      have hrow : Reach (carve_tunnels px py nx y false m1) (px, y) (x, y) :=
        reach_row _ px x y fun t ht1 ht2 =>
          carve_tunnels_row_cells_f px py nx y m1 t (by omega) (by omega)
      exact reach_trans hcol hrow
    · have hred : (carve_tunnels px py nx ny false m1) x y =
          (create_v_tunnel py ny px m1) x y := by
        simp only [carve_tunnels, Bool.false_eq_true, if_false]
        exact create_h_tunnel_outside px nx ny _ x y hh
      by_cases hv : x = px ∧ min py ny ≤ y ∧ y ≤ max py ny
      · right
        obtain ⟨hvx, hv1, hv2⟩ := hv
        subst hvx
        refine ⟨?_, by omega, by omega, hv1, hv2⟩
        exact reach_col _ py y x fun t ht1 ht2 =>
          carve_tunnels_col_cells_f x py nx ny m1 t (by omega) (by omega)
      · left
        rw [hred, create_v_tunnel_outside py ny px m1 x y hv] at h
        exact h

/-- Bounds every accepted room satisfies: it was drawn inside the grid
(`gen_range(0, MAP_WIDTH - w)` and friends) with width and height at
least 2 (the code draws at least `ROOM_MIN_SIZE` = 6). -/
def RoomOK (r : Rect) : Prop :=
  0 ≤ r.x1 ∧ r.x1 + 2 ≤ r.x2 ∧ r.x2 ≤ MAP_WIDTH - 1 ∧
  0 ≤ r.y1 ∧ r.y1 + 2 ≤ r.y2 ∧ r.y2 ≤ MAP_HEIGHT - 1

/-- A room built from a valid draw satisfies `RoomOK`. -/
theorem valid_draw_room_ok (d : RoomDraw) (hd : d.valid) :
    RoomOK (Rect.new d.x d.y d.w d.h) := by
  simp only [RoomDraw.valid, ROOM_MIN_SIZE, ROOM_MAX_SIZE, MAP_WIDTH, MAP_HEIGHT] at hd
  simp only [RoomOK, Rect.new, MAP_WIDTH, MAP_HEIGHT]
  omega

/-- The center of a `RoomOK` room lies strictly inside the room's carved
interior. -/
theorem room_center_bounds (r : Rect) (h : RoomOK r) :
    r.x1 + 1 ≤ r.center.1 ∧ r.center.1 ≤ r.x2 - 1 ∧
    r.y1 + 1 ≤ r.center.2 ∧ r.center.2 ≤ r.y2 - 1 := by
  obtain ⟨h1, h2, h3, h4, h5, h6⟩ := h
  simp only [Rect.center]
  omega

/-- The center of a `RoomOK` room lies in the inner grid `[1, 78] x [1, 41]`. -/
theorem room_center_range (r : Rect) (h : RoomOK r) :
    1 ≤ r.center.1 ∧ r.center.1 ≤ MAP_WIDTH - 2 ∧
    1 ≤ r.center.2 ∧ r.center.2 ≤ MAP_HEIGHT - 2 := by
  have hc := room_center_bounds r h
  obtain ⟨h1, h2, h3, h4, h5, h6⟩ := h
  simp only [MAP_WIDTH, MAP_HEIGHT] at h3 h6 ⊢
  omega

/-- The carved interior of a `RoomOK` room lies in the inner grid. -/
theorem room_interior_range (r : Rect) (h : RoomOK r) (x y : Int)
    (hx1 : r.x1 + 1 ≤ x) (hx2 : x < r.x2) (hy1 : r.y1 + 1 ≤ y) (hy2 : y < r.y2) :
    1 ≤ x ∧ x ≤ MAP_WIDTH - 2 ∧ 1 ≤ y ∧ y ≤ MAP_HEIGHT - 2 := by
  obtain ⟨h1, h2, h3, h4, h5, h6⟩ := h
  simp only [MAP_WIDTH, MAP_HEIGHT] at h3 h6 ⊢
  omega

/-- The loop invariant of `make_map`'s room loop: all accepted rooms are
in bounds, their centers are carved, nothing is carved before the first
room, every carved cell is reachable from the first accepted room's
center, and nothing outside the inner grid is ever carved. -/
def GenInv (m : MapF) (rooms : List Rect) : Prop :=
  (∀ r ∈ rooms, RoomOK r) ∧
  (∀ r ∈ rooms, (m r.center.1 r.center.2).blocked = false) ∧
  (rooms = [] → ∀ x y : Int, (m x y).blocked = true) ∧
  (∀ r0, rooms.head? = some r0 → ∀ x y : Int, (m x y).blocked = false →
    Reach m r0.center (x, y)) ∧
  (∀ x y : Int, (x < 1 ∨ MAP_WIDTH - 2 < x ∨ y < 1 ∨ MAP_HEIGHT - 2 < y) →
    (m x y).blocked = true)

/-- The invariant holds for the initial all-wall grid. -/
theorem genInv_init : GenInv initial_grid [] := by
  refine ⟨?_, ?_, ?_, ?_, ?_⟩
  · intro r hr
    simp at hr
  · intro r hr
    simp at hr
  · intro _ x y
    rfl
  · intro r0 h0
    simp at h0
  · intro x y _
    rfl

/-- One `make_map` iteration preserves the loop invariant. -/
theorem genInv_step (m : MapF) (rooms : List Rect) (d : RoomDraw) (hd : d.valid)
    (hinv : GenInv m rooms) :
    GenInv (make_map_step (m, rooms) d).1 (make_map_step (m, rooms) d).2 := by
  obtain ⟨invOK, invC, invEmpty, invReach, invBorder⟩ := hinv
  by_cases hfail :
      (rooms.any fun other_room => (Rect.new d.x d.y d.w d.h).intersects_with other_room) = true
  · have hstep : make_map_step (m, rooms) d = (m, rooms) := by
      simp only [make_map_step]
      rw [if_pos hfail]
    rw [hstep]
    exact ⟨invOK, invC, invEmpty, invReach, invBorder⟩
  · have hOK : RoomOK (Rect.new d.x d.y d.w d.h) := valid_draw_room_ok d hd
    have hcb := room_center_bounds _ hOK
    cases hlast : rooms.getLast? with
    | none =>
      have hnil : rooms = [] := List.getLast?_eq_none_iff.mp hlast
      subst hnil
      have hstep : make_map_step (m, ([] : List Rect)) d =
          (create_room (Rect.new d.x d.y d.w d.h) m, [Rect.new d.x d.y d.w d.h]) := by
        simp only [make_map_step]
        rw [if_neg hfail]
        rfl
      rw [hstep]
      show GenInv (create_room (Rect.new d.x d.y d.w d.h) m) [Rect.new d.x d.y d.w d.h]
      have hall : ∀ x y : Int, (m x y).blocked = true := invEmpty rfl
      refine ⟨?_, ?_, ?_, ?_, ?_⟩
      · intro r hr
        rw [List.mem_singleton] at hr
        subst hr
        exact hOK
      · intro r hr
        rw [List.mem_singleton] at hr
        subst hr
        exact create_room_unblocked _ m _ _ (by omega) (by omega) (by omega) (by omega)
      · intro habs
        simp at habs
      · intro r0 h0
        rw [List.head?_cons, Option.some_inj] at h0
        subst h0
        intro x y hun
        by_cases hin : (Rect.new d.x d.y d.w d.h).x1 + 1 ≤ x ∧ x < (Rect.new d.x d.y d.w d.h).x2 ∧
            (Rect.new d.x d.y d.w d.h).y1 + 1 ≤ y ∧ y < (Rect.new d.x d.y d.w d.h).y2
        · exact reach_rect _ ((Rect.new d.x d.y d.w d.h).x1 + 1) ((Rect.new d.x d.y d.w d.h).x2 - 1)
            ((Rect.new d.x d.y d.w d.h).y1 + 1) ((Rect.new d.x d.y d.w d.h).y2 - 1)
            (fun a b ha1 ha2 hb1 hb2 =>
              create_room_unblocked _ m a b (by omega) (by omega) (by omega) (by omega))
            _ (x, y) (by omega) (by omega) (by omega) (by omega)
            (by omega) (by omega) (by omega) (by omega)
        · rw [create_room_outside _ m x y hin, hall x y] at hun
          cases hun
      · intro x y hout
        by_cases hin : (Rect.new d.x d.y d.w d.h).x1 + 1 ≤ x ∧ x < (Rect.new d.x d.y d.w d.h).x2 ∧
            (Rect.new d.x d.y d.w d.h).y1 + 1 ≤ y ∧ y < (Rect.new d.x d.y d.w d.h).y2
        · exfalso
          obtain ⟨hi1, hi2, hi3, hi4⟩ := hin
          have := room_interior_range _ hOK x y hi1 hi2 hi3 hi4
          omega
        · rw [create_room_outside _ m x y hin]
          exact invBorder x y hout
    | some prev =>
      obtain ⟨r0, rest, hr⟩ : ∃ r0 rest, rooms = r0 :: rest := by
        cases rooms with
        | nil => simp at hlast
        | cons a l => exact ⟨a, l, rfl⟩
      have hprevmem : prev ∈ rooms := List.mem_of_mem_getLast? (by simp [hlast])
      have hprevOK : RoomOK prev := invOK prev hprevmem
      have hprevC : (m prev.center.1 prev.center.2).blocked = false := invC prev hprevmem
      have hpcb := room_center_bounds prev hprevOK
      have hstep : make_map_step (m, rooms) d =
          (carve_tunnels prev.center.1 prev.center.2
            (Rect.new d.x d.y d.w d.h).center.1 (Rect.new d.x d.y d.w d.h).center.2 d.dir
            (create_room (Rect.new d.x d.y d.w d.h) m),
           List.append rooms [Rect.new d.x d.y d.w d.h]) := by
        simp only [make_map_step]
        rw [if_neg hfail, hlast]
      rw [hstep]
      show GenInv (carve_tunnels prev.center.1 prev.center.2
        (Rect.new d.x d.y d.w d.h).center.1 (Rect.new d.x d.y d.w d.h).center.2 d.dir
        (create_room (Rect.new d.x d.y d.w d.h) m))
        (List.append rooms [Rect.new d.x d.y d.w d.h])
      have hmono1 : ∀ x y : Int, (m x y).blocked = false →
          ((create_room (Rect.new d.x d.y d.w d.h) m) x y).blocked = false :=
        fun x y h => create_room_mono _ m x y h
      have hmono2 : ∀ x y : Int,
          ((create_room (Rect.new d.x d.y d.w d.h) m) x y).blocked = false →
          ((carve_tunnels prev.center.1 prev.center.2
            (Rect.new d.x d.y d.w d.h).center.1 (Rect.new d.x d.y d.w d.h).center.2 d.dir
            (create_room (Rect.new d.x d.y d.w d.h) m)) x y).blocked = false :=
        fun x y h => carve_tunnels_mono _ _ _ _ _ _ x y h
      have hmono12 : ∀ x y : Int, (m x y).blocked = false →
          ((carve_tunnels prev.center.1 prev.center.2
            (Rect.new d.x d.y d.w d.h).center.1 (Rect.new d.x d.y d.w d.h).center.2 d.dir
            (create_room (Rect.new d.x d.y d.w d.h) m)) x y).blocked = false :=
        fun x y h => hmono2 x y (hmono1 x y h)
      have hhead : rooms.head? = some r0 := by
        rw [hr]
        rfl
      have hreach_r0_prev : Reach (carve_tunnels prev.center.1 prev.center.2
          (Rect.new d.x d.y d.w d.h).center.1 (Rect.new d.x d.y d.w d.h).center.2 d.dir
          (create_room (Rect.new d.x d.y d.w d.h) m)) r0.center prev.center :=
        reach_mono hmono12 (invReach r0 hhead prev.center.1 prev.center.2 hprevC)
      have hendpoint : Reach (carve_tunnels prev.center.1 prev.center.2
          (Rect.new d.x d.y d.w d.h).center.1 (Rect.new d.x d.y d.w d.h).center.2 d.dir
          (create_room (Rect.new d.x d.y d.w d.h) m)) prev.center
          (Rect.new d.x d.y d.w d.h).center :=
        carve_tunnels_endpoint _ _ _ _ d.dir _
      have hreach_r0_nr : Reach (carve_tunnels prev.center.1 prev.center.2
          (Rect.new d.x d.y d.w d.h).center.1 (Rect.new d.x d.y d.w d.h).center.2 d.dir
          (create_room (Rect.new d.x d.y d.w d.h) m)) r0.center
          (Rect.new d.x d.y d.w d.h).center :=
        reach_trans hreach_r0_prev hendpoint
      have hInterior2 : ∀ x y : Int,
          (Rect.new d.x d.y d.w d.h).x1 + 1 ≤ x → x < (Rect.new d.x d.y d.w d.h).x2 →
          (Rect.new d.x d.y d.w d.h).y1 + 1 ≤ y → y < (Rect.new d.x d.y d.w d.h).y2 →
          ((carve_tunnels prev.center.1 prev.center.2
            (Rect.new d.x d.y d.w d.h).center.1 (Rect.new d.x d.y d.w d.h).center.2 d.dir
            (create_room (Rect.new d.x d.y d.w d.h) m)) x y).blocked = false :=
        fun x y h1 h2 h3 h4 =>
          hmono2 x y (create_room_unblocked _ m x y h1 h2 h3 h4)
      refine ⟨?_, ?_, ?_, ?_, ?_⟩
      · intro r hr2
        rw [List.append_eq, List.mem_append, List.mem_singleton] at hr2
        rcases hr2 with hold | hnew
        · exact invOK r hold
        · subst hnew
          exact hOK
      · intro r hr2
        rw [List.append_eq, List.mem_append, List.mem_singleton] at hr2
        rcases hr2 with hold | hnew
        · exact hmono12 _ _ (invC r hold)
        · subst hnew
          exact hInterior2 _ _ (by omega) (by omega) (by omega) (by omega)
      · intro habs
        simp at habs
      · intro r0' h0'
        have hr0' : r0' = r0 := by
          rw [hr] at h0'
          simp at h0'
          exact h0'.symm
        rw [hr0']
        intro x y hun
        rcases carve_tunnels_decomp prev.center.1 prev.center.2
            (Rect.new d.x d.y d.w d.h).center.1 (Rect.new d.x d.y d.w d.h).center.2 d.dir
            (create_room (Rect.new d.x d.y d.w d.h) m) x y hun with hm1 | ⟨hre, _⟩
        · by_cases hin : (Rect.new d.x d.y d.w d.h).x1 + 1 ≤ x ∧
              x < (Rect.new d.x d.y d.w d.h).x2 ∧
              (Rect.new d.x d.y d.w d.h).y1 + 1 ≤ y ∧ y < (Rect.new d.x d.y d.w d.h).y2
          · refine reach_trans hreach_r0_nr ?_
            exact reach_rect _ ((Rect.new d.x d.y d.w d.h).x1 + 1)
              ((Rect.new d.x d.y d.w d.h).x2 - 1)
              ((Rect.new d.x d.y d.w d.h).y1 + 1) ((Rect.new d.x d.y d.w d.h).y2 - 1)
              (fun a b ha1 ha2 hb1 hb2 => hInterior2 a b (by omega) (by omega) (by omega) (by omega))
              _ (x, y) (by omega) (by omega) (by omega) (by omega)
              (by omega) (by omega) (by omega) (by omega)
          · rw [create_room_outside _ m x y hin] at hm1
            exact reach_mono hmono12 (invReach r0 hhead x y hm1)
        · exact reach_trans hreach_r0_prev hre
      · intro x y hout
        cases hb : ((carve_tunnels prev.center.1 prev.center.2
            (Rect.new d.x d.y d.w d.h).center.1 (Rect.new d.x d.y d.w d.h).center.2 d.dir
            (create_room (Rect.new d.x d.y d.w d.h) m)) x y).blocked with
        | false =>
          exfalso
          rcases carve_tunnels_decomp prev.center.1 prev.center.2
              (Rect.new d.x d.y d.w d.h).center.1 (Rect.new d.x d.y d.w d.h).center.2 d.dir
              (create_room (Rect.new d.x d.y d.w d.h) m) x y hb with hm1 | ⟨_, hbox⟩
          · by_cases hin : (Rect.new d.x d.y d.w d.h).x1 + 1 ≤ x ∧
                x < (Rect.new d.x d.y d.w d.h).x2 ∧
                (Rect.new d.x d.y d.w d.h).y1 + 1 ≤ y ∧ y < (Rect.new d.x d.y d.w d.h).y2
            · obtain ⟨hi1, hi2, hi3, hi4⟩ := hin
              have := room_interior_range _ hOK x y hi1 hi2 hi3 hi4
              omega
            · rw [create_room_outside _ m x y hin] at hm1
              rw [invBorder x y hout] at hm1
              cases hm1
          · have hc1 := room_center_range _ hOK
            have hc2 := room_center_range prev hprevOK
            omega
        | true => rfl

/-- The loop invariant survives folding any sequence of valid draws. -/
theorem genInv_fold (draws : List RoomDraw) :
    ∀ (m : MapF) (rooms : List Rect), (∀ d ∈ draws, d.valid) → GenInv m rooms →
      GenInv (draws.foldl make_map_step (m, rooms)).1
        (draws.foldl make_map_step (m, rooms)).2 := by
  induction draws with
  | nil =>
    intro m rooms _ h
    simpa using h
  | cons d ds ih =>
    intro m rooms hv h
    rw [List.foldl_cons]
    have hstep := genInv_step m rooms d (hv d (by simp)) h
    have hv' : ∀ d' ∈ ds, d'.valid := fun d' hd' => hv d' (by simp [hd'])
    exact ih (make_map_step (m, rooms) d).1 (make_map_step (m, rooms) d).2 hv' hstep

/-- The generated map satisfies the loop invariant. -/
theorem genInv_make_map (draws : List RoomDraw) (hv : ∀ d ∈ draws, d.valid) :
    GenInv (make_map draws).1 (make_map draws).2 :=
  genInv_fold draws initial_grid [] hv genInv_init

/-- C7: for every sequence of random draws within their `gen_range`
bounds, every unblocked tile of the generated map is reachable from the
center of the first accepted room — the tile where `make_map` places the
player — through orthogonally adjacent unblocked tiles. -/
theorem C7_connectivity (draws : List RoomDraw) (hv : ∀ d ∈ draws, d.valid)
    (r0 : Rect) (rest : List Rect) (h0 : (make_map draws).2 = r0 :: rest) :
    ∀ x y : Int, ((make_map draws).1 x y).blocked = false →
      Reach (make_map draws).1 r0.center (x, y) :=
  (genInv_make_map draws hv).2.2.2.1 r0 (by rw [h0]; rfl)

/-- In-bounds predicate for the `map[x as usize][y as usize]` indexing
performed by `is_blocked`. -/
def idx_in_bounds (x y : Int) : Prop :=
  0 ≤ x ∧ x < MAP_WIDTH ∧ 0 ≤ y ∧ y < MAP_HEIGHT

/-- C10: for every sequence of in-bounds random draws, `make_map` leaves
every grid-border tile blocked (all carving lands in
`[1, MAP_WIDTH-2] x [1, MAP_HEIGHT-2]`), and a single-step move from a
strictly interior position always indexes the map in bounds. -/
theorem C10_borders (draws : List RoomDraw) (hv : ∀ d ∈ draws, d.valid) :
    (∀ x y : Int, (x ≤ 0 ∨ MAP_WIDTH - 1 ≤ x ∨ y ≤ 0 ∨ MAP_HEIGHT - 1 ≤ y) →
      ((make_map draws).1 x y).blocked = true) ∧
    (∀ x y dx dy : Int, 1 ≤ x → x ≤ MAP_WIDTH - 2 → 1 ≤ y → y ≤ MAP_HEIGHT - 2 →
      dx.natAbs ≤ 1 → dy.natAbs ≤ 1 → idx_in_bounds (x + dx) (y + dy)) := by
  constructor
  · intro x y h
    exact (genInv_make_map draws hv).2.2.2.2 x y (by omega)
  · intro x y dx dy h1 h2 h3 h4 h5 h6
    simp only [MAP_WIDTH, MAP_HEIGHT] at h2 h4
    simp only [idx_in_bounds, MAP_WIDTH, MAP_HEIGHT]
    omega

/-- A concrete valid draw list: two disjoint 6 x 6 rooms, connected. -/
def mapDrawsW : List RoomDraw :=
  [{ w := 6, h := 6, x := 0, y := 0, dir := true },
   { w := 6, h := 6, x := 20, y := 20, dir := true }]

/-- C7 witness: on the concrete two-room map, the second room's center
(23, 23) is reachable from the first room's center. -/
theorem C7_connectivity_witness :
    Reach (make_map mapDrawsW).1
      ({ x1 := 0, y1 := 0, x2 := 6, y2 := 6 } : Rect).center (23, 23) :=
  C7_connectivity mapDrawsW
    (by intro d hd; rcases List.mem_cons.mp hd with rfl | hd2; · decide
        · rcases List.mem_cons.mp hd2 with rfl | hd3; · decide
          · simp at hd3)
    { x1 := 0, y1 := 0, x2 := 6, y2 := 6 }
    [{ x1 := 20, y1 := 20, x2 := 26, y2 := 26 }]
    (by decide) 23 23 (by decide)

/-- C10 witness: on the concrete two-room map a border tile is blocked,
and a diagonal step from (1, 1) stays in bounds. -/
theorem C10_borders_witness :
    ((make_map mapDrawsW).1 0 21).blocked = true ∧ idx_in_bounds (1 + 1) (1 + -1) :=
  ⟨(C10_borders mapDrawsW
      (by intro d hd; rcases List.mem_cons.mp hd with rfl | hd2; · decide
          · rcases List.mem_cons.mp hd2 with rfl | hd3; · decide
            · simp at hd3)).1 0 21 (by omega),
   (C10_borders mapDrawsW
      (by intro d hd; rcases List.mem_cons.mp hd with rfl | hd2; · decide
          · rcases List.mem_cons.mp hd2 with rfl | hd3; · decide
            · simp at hd3)).2 1 1 1 (-1)
      (by omega) (by decide) (by omega) (by decide) (by decide) (by decide)⟩
